import Mathlib

/-!
Verification of the xMoney payments SDK (TypeScript) against its
natural-language specification.  The definitions below are a shallow
embedding of the relevant source files:

* src/resources/checkout.ts  — hosted-checkout payload/checksum encoder and
  the encrypted-response decoder;
* src/core/client.ts         — the request pipeline with retry/backoff and
  query-string building;
* src/core/pagination.ts     — the paginated-list container and its
  page-walking iterator.

External capabilities that the SDK itself delegates to the runtime
(HMAC-SHA512, AES-256-CBC, JSON.parse of untrusted input, the HTTP
transport) are modelled as explicit function parameters, exactly as the
source receives them through its platform/transport abstractions.
Byte strings are `List Nat` with every entry below 256.
-/

/-! ## Base64 (Node Buffer toString base64 / from base64, standard alphabet) -/

def base64Alphabet : List Char :=
  "ABCDEFGHIJKLMNOPQRSTUVWXYZabcdefghijklmnopqrstuvwxyz0123456789+/".toList

/-- Character for a 6-bit group. -/
def base64Char (n : Nat) : Char :=
  base64Alphabet.getD n 'A'

/-- Index of a character in the base64 alphabet, none for padding or junk. -/
def base64CharVal (c : Char) : Option Nat :=
  base64Alphabet.findIdx? (fun c' => c' == c)

/-- Encode bytes three at a time into four base64 characters, padding with
the equals sign as in RFC 4648 (what Node Buffer toString base64 emits). -/
def base64EncodeCore : List Nat → List Char
  | [] => []
  | [a] => [base64Char (a / 4), base64Char (a % 4 * 16), '=', '=']
  | [a, b] => [base64Char (a / 4), base64Char (a % 4 * 16 + b / 16),
               base64Char (b % 16 * 4), '=']
  | a :: b :: c :: rest =>
      base64Char (a / 4) :: base64Char (a % 4 * 16 + b / 16) ::
      base64Char (b % 16 * 4 + c / 64) :: base64Char (c % 64) ::
      base64EncodeCore rest

def base64Encode (bs : List Nat) : String :=
  String.mk (base64EncodeCore bs)

/-- Decode four base64 characters at a time back into bytes. -/
def base64DecodeCore : List Char → Option (List Nat)
  | [] => some []
  | c1 :: c2 :: c3 :: c4 :: rest =>
      if c3 = '=' ∧ c4 = '=' ∧ rest = [] then
        match base64CharVal c1, base64CharVal c2 with
        | some v1, some v2 => some [v1 * 4 + v2 / 16]
        | _, _ => none
      else if c4 = '=' ∧ rest = [] then
        match base64CharVal c1, base64CharVal c2, base64CharVal c3 with
        | some v1, some v2, some v3 =>
            some [v1 * 4 + v2 / 16, v2 % 16 * 16 + v3 / 4]
        | _, _, _ => none
      else
        match base64CharVal c1, base64CharVal c2, base64CharVal c3,
              base64CharVal c4, base64DecodeCore rest with
        | some v1, some v2, some v3, some v4, some bs =>
            some ((v1 * 4 + v2 / 16) :: (v2 % 16 * 16 + v3 / 4) ::
                  (v3 % 4 * 64 + v4) :: bs)
        | _, _, _, _, _ => none
  | _ => none

def base64Decode (s : String) : Option (List Nat) :=
  base64DecodeCore s.toList

theorem base64CharVal_base64Char (n : Nat) (h : n < 64) :
    base64CharVal (base64Char n) = some n := by
  revert n
  decide

theorem base64Char_ne_eq (n : Nat) (h : n < 64) : base64Char n ≠ '=' := by
  revert n
  decide

/-- Decoding inverts encoding on genuine byte lists. -/
theorem base64DecodeCore_encodeCore (bs : List Nat) (h : ∀ b ∈ bs, b < 256) :
    base64DecodeCore (base64EncodeCore bs) = some bs := by
  induction bs using base64EncodeCore.induct with
  | case1 => rfl
  | case2 a =>
      have ha : a < 256 := h a (by simp)
      rw [base64EncodeCore, base64DecodeCore]
      rw [if_pos ⟨rfl, rfl, rfl⟩]
      rw [base64CharVal_base64Char _ (by omega), base64CharVal_base64Char _ (by omega)]
      simp only [Option.some.injEq, List.cons.injEq, and_true]
      omega
  | case3 a b =>
      have ha : a < 256 := h a (by simp)
      have hb : b < 256 := h b (by simp)
      rw [base64EncodeCore, base64DecodeCore]
      rw [if_neg (by
        intro hcontra
        exact base64Char_ne_eq (b % 16 * 4) (by omega) hcontra.1)]
      rw [if_pos ⟨rfl, rfl⟩]
      rw [base64CharVal_base64Char _ (by omega), base64CharVal_base64Char _ (by omega),
          base64CharVal_base64Char _ (by omega)]
      simp only [Option.some.injEq, List.cons.injEq, and_true]
      omega
  | case4 a b c rest ih =>
      have ha : a < 256 := h a (by simp)
      have hb : b < 256 := h b (by simp)
      have hc : c < 256 := h c (by simp)
      have hrest : ∀ x ∈ rest, x < 256 := by
        intro x hx
        exact h x (by simp [hx])
      rw [base64EncodeCore, base64DecodeCore]
      rw [if_neg (by
        intro hcontra
        exact base64Char_ne_eq (b % 16 * 4 + c / 64) (by omega) hcontra.1)]
      rw [if_neg (by
        intro hcontra
        exact base64Char_ne_eq (c % 64) (by omega) hcontra.1)]
      rw [base64CharVal_base64Char _ (by omega), base64CharVal_base64Char _ (by omega),
          base64CharVal_base64Char _ (by omega), base64CharVal_base64Char _ (by omega),
          ih hrest]
      simp only [Option.some.injEq, List.cons.injEq, and_true]
      refine ⟨by omega, by omega, by omega⟩

theorem base64Decode_base64Encode (bs : List Nat) (h : ∀ b ∈ bs, b < 256) :
    base64Decode (base64Encode bs) = some bs := by
  simpa [base64Decode, base64Encode] using base64DecodeCore_encodeCore bs h

/-! ## UTF-8 encoding of strings (Node Buffer from utf8) -/

/-- UTF-8 bytes of one unicode scalar value. -/
def utf8EncodeChar (c : Char) : List Nat :=
  if c.toNat < 128 then [c.toNat]
  else if c.toNat < 2048 then [192 + c.toNat / 64, 128 + c.toNat % 64]
  else if c.toNat < 65536 then
    [224 + c.toNat / 4096, 128 + c.toNat / 64 % 64, 128 + c.toNat % 64]
  else
    [240 + c.toNat / 262144, 128 + c.toNat / 4096 % 64, 128 + c.toNat / 64 % 64,
     128 + c.toNat % 64]

def utf8Encode (s : String) : List Nat :=
  s.toList.flatMap utf8EncodeChar

theorem char_toNat_lt (c : Char) : c.toNat < 1114112 := by
  have h := c.valid
  rcases h with h | h
  · exact Nat.lt_trans h (by norm_num)
  · exact h.2

theorem utf8EncodeChar_lt (c : Char) : ∀ b ∈ utf8EncodeChar c, b < 256 := by
  intro b hb
  have hn := char_toNat_lt c
  unfold utf8EncodeChar at hb
  split at hb
  · simp at hb; omega
  · split at hb
    · simp at hb; rcases hb with hb | hb <;> omega
    · split at hb
      · simp at hb; rcases hb with hb | hb | hb <;> omega
      · simp at hb; rcases hb with hb | hb | hb | hb <;> omega

theorem utf8Encode_lt (s : String) : ∀ b ∈ utf8Encode s, b < 256 := by
  intro b hb
  simp only [utf8Encode, List.mem_flatMap] at hb
  obtain ⟨c, _, hc⟩ := hb
  exact utf8EncodeChar_lt c b hc

/-! ## JavaScript values and JSON.stringify

JS objects are association lists in property-insertion order; JSON.stringify
drops object entries whose value is undefined and renders undefined array
elements as null, matching the ECMAScript specification.  Numbers are
carried as their JS-rendered literal, since no claim depends on number
formatting. -/

mutual

inductive JsValue where
  | str (s : String)
  | num (lit : String)
  | bool (b : Bool)
  | null
  | undefined
  | arr (items : JsList)
  | obj (fields : JsFields)

inductive JsList where
  | nil
  | cons (head : JsValue) (tail : JsList)

inductive JsFields where
  | nil
  | cons (key : String) (value : JsValue) (tail : JsFields)

end

def JsList.ofList : List JsValue → JsList
  | [] => .nil
  | v :: rest => .cons v (JsList.ofList rest)

def JsFields.ofList : List (String × JsValue) → JsFields
  | [] => .nil
  | (k, v) :: rest => .cons k v (JsFields.ofList rest)

def hexDigit (n : Nat) : Char :=
  "0123456789abcdef".toList.getD n '0'

/-- JSON string escaping as performed by JSON.stringify. -/
def jsonEscapeChar (c : Char) : List Char :=
  if c = '"' then ['\\', '"']
  else if c = '\\' then ['\\', '\\']
  else if c = '\x08' then ['\\', 'b']
  else if c = '\t' then ['\\', 't']
  else if c = '\n' then ['\\', 'n']
  else if c = '\x0c' then ['\\', 'f']
  else if c = '\r' then ['\\', 'r']
  else if c.toNat < 32 then
    '\\' :: 'u' :: hexDigit (c.toNat / 4096 % 16) :: hexDigit (c.toNat / 256 % 16) ::
    hexDigit (c.toNat / 16 % 16) :: [hexDigit (c.toNat % 16)]
  else [c]

def jsonQuote (s : String) : String :=
  String.mk ('"' :: s.toList.flatMap jsonEscapeChar ++ ['"'])

def joinComma (parts : List String) : String :=
  String.intercalate "," parts

mutual

def jsonStringify : JsValue → Option String
  | .str s => some (jsonQuote s)
  | .num lit => some lit
  | .bool true => some "true"
  | .bool false => some "false"
  | .null => some "null"
  | .undefined => none
  | .arr items => some ("[" ++ joinComma (stringifyItems items) ++ "]")
  | .obj fields => some ("\x7b" ++ joinComma (stringifyFields fields) ++ "\x7d")

def stringifyItems : JsList → List String
  | .nil => []
  | .cons v rest => ((jsonStringify v).getD "null") :: stringifyItems rest

def stringifyFields : JsFields → List String
  | .nil => []
  | .cons k v rest =>
      match jsonStringify v with
      | none => stringifyFields rest
      | some sv => (jsonQuote k ++ ":" ++ sv) :: stringifyFields rest

end

/-- Rendered members of an object held as a plain association list. -/
def stringifyFieldsL (l : List (String × JsValue)) : List String :=
  l.filterMap (fun kv => (jsonStringify kv.2).map (fun sv => jsonQuote kv.1 ++ ":" ++ sv))

/-- JSON.stringify of an object held as a plain association list. -/
def objStringifyL (l : List (String × JsValue)) : String :=
  "\x7b" ++ joinComma (stringifyFieldsL l) ++ "\x7d"

/-- Keys of an association-list object that survive JSON.stringify
(entries whose value is undefined are dropped). -/
def serializedKeys (l : List (String × JsValue)) : List String :=
  l.filterMap (fun kv => (jsonStringify kv.2).map (fun _ => kv.1))

/-! ## JS object-literal update semantics

Writing a property that already exists keeps its position and replaces its
value; writing a fresh property appends it.  An object spread writes the
spread properties left to right.  This is what
`\x7b siteId, saveCard: ..., ...params \x7d` in checkout.ts relies on. -/

def setKey (l : List (String × JsValue)) (k : String) (v : JsValue) :
    List (String × JsValue) :=
  match l with
  | [] => [(k, v)]
  | (k', v') :: rest => if k' = k then (k', v) :: rest else (k', v') :: setKey rest k v

/-- Spread the fields of the second object into the first, left to right. -/
def mergeSpread (base fields : List (String × JsValue)) : List (String × JsValue) :=
  match fields with
  | [] => base
  | (k, v) :: rest => mergeSpread (setKey base k v) rest

/-- Value of the LAST write of a key in an object literal or spread list. -/
def lookupLast (l : List (String × JsValue)) (k : String) : Option JsValue :=
  match l with
  | [] => none
  | (k', v) :: rest =>
      match lookupLast rest k with
      | some w => some w
      | none => if k' = k then some v else none

def lookupKey (l : List (String × JsValue)) (k : String) : Option JsValue :=
  match l with
  | [] => none
  | (k', v) :: rest => if k' = k then some v else lookupKey rest k

theorem lookupKey_setKey_self (l : List (String × JsValue)) (k : String) (v : JsValue) :
    lookupKey (setKey l k v) k = some v := by
  induction l with
  | nil => simp [setKey, lookupKey]
  | cons hd tl ih =>
      obtain ⟨k', v'⟩ := hd
      by_cases hk : k' = k
      · simp [setKey, lookupKey, hk]
      · simp [setKey, lookupKey, hk, ih]

theorem lookupKey_setKey_other (l : List (String × JsValue)) (k k' : String)
    (v : JsValue) (h : k' ≠ k) : lookupKey (setKey l k v) k' = lookupKey l k' := by
  induction l with
  | nil =>
      have h2 : ¬k = k' := fun hh => h hh.symm
      simp [setKey, lookupKey, h2]
  | cons hd tl ih =>
      obtain ⟨k'', v''⟩ := hd
      by_cases hk : k'' = k
      · subst hk
        have h2 : ¬k'' = k' := fun hh => h hh.symm
        simp [setKey, lookupKey, h2]
      · by_cases hk2 : k'' = k'
        · simp [setKey, lookupKey, hk, hk2, h]
        · simp [setKey, lookupKey, hk, hk2, ih]

theorem lookupKey_mergeSpread (base fields : List (String × JsValue)) (k : String) :
    lookupKey (mergeSpread base fields) k =
      match lookupLast fields k with
      | some v => some v
      | none => lookupKey base k := by
  induction fields generalizing base with
  | nil => simp [mergeSpread, lookupLast]
  | cons hd tl ih =>
      obtain ⟨k', v⟩ := hd
      rw [mergeSpread, ih, lookupLast]
      cases htl : lookupLast tl k with
      | some w => simp
      | none =>
          by_cases hk : k' = k
          · subst hk
            simp [lookupKey_setKey_self]
          · simp [hk, lookupKey_setKey_other base k' k v (by exact fun hh => hk hh.symm)]

/-! ## Checkout resource (src/resources/checkout.ts)

`CheckoutCreateParams` mirrors the TypeScript interface; optional fields are
`Option`, except `saveCard`, where the claims distinguish a key that is
absent, a key explicitly set to undefined, and a key with a boolean value
(`JsOpt`).  `paramsFields` renders the params object with its keys in the
declaration order of the interface; no claim depends on the key order, only
on which keys appear and with which values. -/

inductive JsOpt (α : Type) where
  | absent
  | undef
  | val (a : α)
deriving DecidableEq

inductive CardTransactionMode where
  | auth
  | authAndCapture
  | credit
deriving DecidableEq

def CardTransactionMode.render : CardTransactionMode → String
  | .auth => "auth"
  | .authAndCapture => "authAndCapture"
  | .credit => "credit"

inductive OrderType where
  | purchase
  | recurring
  | managed
  | credit
deriving DecidableEq

def OrderType.render : OrderType → String
  | .purchase => "purchase"
  | .recurring => "recurring"
  | .managed => "managed"
  | .credit => "credit"

structure CustomerInfo where
  identifier : String
  firstName : Option String := none
  lastName : Option String := none
  country : Option String := none
  city : Option String := none
  phone : Option String := none
  email : Option String := none
  tags : Option (List String) := none
deriving DecidableEq

structure OrderInfo where
  orderId : String
  orderType : OrderType
  amount : String
  currency : String
  description : String
deriving DecidableEq

structure CheckoutCreateParams where
  publicKey : String
  cardTransactionMode : CardTransactionMode
  invoiceEmail : Option String := none
  saveCard : JsOpt Bool := .absent
  backUrl : String
  customData : Option String := none
  customer : CustomerInfo
  order : OrderInfo
deriving DecidableEq

def optField (k : String) : Option JsValue → List (String × JsValue)
  | none => []
  | some v => [(k, v)]

def jsOptBoolField (k : String) : JsOpt Bool → List (String × JsValue)
  | .absent => []
  | .undef => [(k, .undefined)]
  | .val b => [(k, .bool b)]

def customerFields (c : CustomerInfo) : List (String × JsValue) :=
  [("identifier", .str c.identifier)]
    ++ optField "firstName" (c.firstName.map .str)
    ++ optField "lastName" (c.lastName.map .str)
    ++ optField "country" (c.country.map .str)
    ++ optField "city" (c.city.map .str)
    ++ optField "phone" (c.phone.map .str)
    ++ optField "email" (c.email.map .str)
    ++ optField "tags" (c.tags.map (fun ts => .arr (JsList.ofList (ts.map .str))))

def orderFields (o : OrderInfo) : List (String × JsValue) :=
  [("orderId", .str o.orderId), ("type", .str o.orderType.render),
   ("amount", .num o.amount), ("currency", .str o.currency),
   ("description", .str o.description)]

/-- The params object as a JS property list, keys in interface order. -/
def paramsFields (p : CheckoutCreateParams) : List (String × JsValue) :=
  [("publicKey", .str p.publicKey),
   ("cardTransactionMode", .str p.cardTransactionMode.render)]
    ++ optField "invoiceEmail" (p.invoiceEmail.map .str)
    ++ jsOptBoolField "saveCard" p.saveCard
    ++ [("backUrl", .str p.backUrl)]
    ++ optField "customData" (p.customData.map .str)
    ++ [("customer", .obj (JsFields.ofList (customerFields p.customer))),
        ("order", .obj (JsFields.ofList (orderFields p.order)))]

/-- Match of the regular expression pk_(test|live)_(.+)$ anchored on both
sides; the dot of JS regexes matches any character except line terminators. -/
def regexDotChar (c : Char) : Bool :=
  !(c = '\n' ∨ c = '\r' ∨ c = '\u2028' ∨ c = '\u2029')

def matchPublicKeyTail (cs : List Char) : Option (List Char) :=
  if cs ≠ [] ∧ cs.all regexDotChar then some cs else none

def matchPublicKey (s : String) : Option String :=
  if "pk_test_".toList.isPrefixOf s.toList then
    (matchPublicKeyTail (s.toList.drop 8)).map String.mk
  else if "pk_live_".toList.isPrefixOf s.toList then
    (matchPublicKeyTail (s.toList.drop 8)).map String.mk
  else none

/-- Lines 256 to 266 of checkout.ts: the empty-key check, then the regex
match, each with its own error message; on success the captured group. -/
def validatePublicKey (pk : String) : Except String String :=
  if pk = "" then .error "Public key is required for hosted checkout"
  else
    match matchPublicKey pk with
    | none => .error "Invalid public key format. Expected: pk_<env>_<key>"
    | some siteId => .ok siteId

/-- The object literal of line 268: siteId and the defaulted saveCard first,
then the spread of params, which replaces saveCard in place when the caller
passed the key. -/
def buildCheckoutData (siteId : String) (p : CheckoutCreateParams) :
    List (String × JsValue) :=
  mergeSpread
    [("siteId", .str siteId),
     ("saveCard", .bool (match p.saveCard with | .val b => b | _ => false))]
    (paramsFields p)

structure CheckoutCreateResponse where
  payload : String
  checksum : String
deriving DecidableEq

/-- generateChecksum stringifies the data object a second time and feeds the
result to HMAC-SHA512; `hmac key message` stands for the digest bytes of the
platform crypto provider. -/
def generateChecksum (hmac : String → String → List Nat) (apiKey : String)
    (data : List (String × JsValue)) : String :=
  base64Encode (hmac apiKey (objStringifyL data))

/-- CheckoutResource.create: validate the public key, build the payload
object, JSON.stringify it, base64 the UTF-8 bytes for the payload, and
checksum the (re-)stringified object. -/
def checkoutCreate (hmac : String → String → List Nat) (apiKey : String)
    (p : CheckoutCreateParams) : Except String CheckoutCreateResponse :=
  match validatePublicKey p.publicKey with
  | .error m => .error m
  | .ok siteId =>
      let data := buildCheckoutData siteId p
      let jsonText := objStringifyL data
      let payload := base64Encode (utf8Encode jsonText)
      let checksum := generateChecksum hmac apiKey data
      .ok ⟨payload, checksum⟩

/-- CheckoutResource.decrypt.  `aesDecrypt key ivB64 ctB64` stands for the
base64 decode of the two segments followed by AES-256-CBC decryption and
UTF-8 decoding of the concatenated output; `jsonParse` stands for JSON.parse
on the decrypted string (none on a parse failure).  The second component
records whether a decipher was ever instantiated.  The split mirrors
JS split(",", 2): split on every comma, keep the first two fields. -/
def splitCommas : List Char → List (List Char)
  | [] => [[]]
  | c :: rest =>
      let r := splitCommas rest
      if c = ',' then [] :: r
      else
        match r with
        | [] => [[c]]
        | f :: fs => (c :: f) :: fs

/-- JS String.split(",", 2): split on EVERY comma, keep the first two
fields (the remainder after the second comma is discarded, not joined). -/
def splitCommaLimit2 (s : String) : List String :=
  ((splitCommas s.toList).map String.mk).take 2

def checkoutDecrypt (aesDecrypt : String → String → String → String)
    (jsonParse : String → Option JsValue) (apiKey : String)
    (encryptedResponse : String) : Except String JsValue × Bool :=
  let parts := splitCommaLimit2 encryptedResponse
  let ivBase64 := parts.getD 0 ""
  let encryptedBase64 := parts.getD 1 ""
  if ivBase64 = "" ∨ encryptedBase64 = "" then
    (.error "Invalid encrypted response format", false)
  else
    let decrypted := aesDecrypt apiKey ivBase64 encryptedBase64
    match jsonParse decrypted with
    | some v => (.ok v, true)
    | none => (.error "Failed to parse decrypted response", true)

/-- Splitting on the FIRST comma only, following the words of the
specification sentence behind claim C4 (not the behaviour of the code,
which truncates after the second comma-separated field). -/
def specFirstCommaSplit (s : String) : List String :=
  match (splitCommas s.toList).map String.mk with
  | [] => [s]
  | a :: rest => if rest = [] then [a] else [a, String.intercalate "," rest]

/-! ## Request pipeline (src/core/client.ts)

The transport is a function from the attempt number (1-indexed) to what the
HTTP client does on that invocation: either reject outright (network error,
timeout) or deliver a response whose ok flag, status and JSON body parse
result are given.  The body parse result is consumed FIRST, exactly as the
source awaits response.json() before checking response.ok. -/

structure ApiErrorEntry where
  code : Option Nat := none
  message : String := ""
  errType : Option String := none
  field : Option String := none
deriving DecidableEq

/-- The fields of the parsed JSON body that client.ts reads. -/
structure ApiBody where
  message : Option String := none
  code : Option Nat := none
  error : Option (List ApiErrorEntry) := none
deriving DecidableEq

structure XMoneyErrorData where
  message : String
  statusCode : Option Nat := none
  code : Option Nat := none
  errors : Option (List ApiErrorEntry) := none
deriving DecidableEq

/-- A value thrown inside the request loop: either an XMoneyError instance
or anything else (JSON parse failure, network error), identified by a tag. -/
inductive ReqError where
  | xmoney (d : XMoneyErrorData)
  | other (tag : String)
deriving DecidableEq

def ReqError.statusCode : ReqError → Option Nat
  | .xmoney d => d.statusCode
  | .other _ => none

def ReqError.isXMoney : ReqError → Bool
  | .xmoney _ => true
  | .other _ => false

deriving instance DecidableEq for Except

inductive AttemptOutcome where
  | throws (e : ReqError)
  | respond (ok : Bool) (status : Nat) (body : Except ReqError ApiBody)
deriving DecidableEq

/-- The XMoneyError built for a non-2xx response: message from the body with
the JS || fallback (empty string is falsy), statusCode from the response. -/
def mkApiError (data : ApiBody) (status : Nat) : XMoneyErrorData :=
  { message :=
      match data.message with
      | some m => if m = "" then "Request failed" else m
      | none => "Request failed"
    statusCode := some status
    code := data.code
    errors := data.error }

/-- One iteration of the try block: await the transport, await json(), then
check ok.  A body parse failure is raised before the status is looked at. -/
def runAttempt : AttemptOutcome → Except ReqError ApiBody
  | .throws e => .error e
  | .respond ok status body =>
      match body with
      | .error e => .error e
      | .ok data => if ok then .ok data else .error (.xmoney (mkApiError data status))

/-- The catch clause: rethrow at once when the error is an XMoneyError whose
statusCode is truthy (nonzero) and below 500; retry anything else. -/
def noRetry (e : ReqError) : Bool :=
  match e with
  | .xmoney d =>
      match d.statusCode with
      | some s => s != 0 && s < 500
      | none => false
  | .other _ => false

/-- Backoff before the next attempt, from line 193 of client.ts. -/
def backoffDelay (attempt : Nat) : Nat :=
  min (1000 * 2 ^ (attempt - 1)) 10000

structure RunResult where
  result : Except ReqError ApiBody
  calls : Nat
  delays : List Nat
deriving DecidableEq

/-- The for-loop of request, with `k` the attempts still allowed (so the
loop guard attempt ≤ maxRetries is k > 0).  When the final allowed attempt
fails, the loop exits and the last error is thrown; `calls` counts transport
invocations and `delays` the awaited backoff sleeps in order.  The `k = 0`
entry case models the throw of an undefined lastError when the loop body
never ran (maxRetries below 1). -/
def retryGo (t : Nat → AttemptOutcome) : Nat → Nat → RunResult
  | _, 0 => ⟨.error (.other "undefined"), 0, []⟩
  | attempt, k + 1 =>
      match runAttempt (t attempt) with
      | .ok v => ⟨.ok v, 1, []⟩
      | .error e =>
          if noRetry e then ⟨.error e, 1, []⟩
          else
            match k with
            | 0 => ⟨.error e, 1, []⟩
            | k' + 1 =>
                let r := retryGo t (attempt + 1) (k' + 1)
                ⟨r.result, r.calls + 1, backoffDelay attempt :: r.delays⟩

/-- XMoneyClient.request restricted to its retry behaviour: run attempts
1 to maxRetries. -/
def xmoneyRequest (t : Nat → AttemptOutcome) (maxRetries : Nat) : RunResult :=
  retryGo t 1 maxRetries

/-- maxRetries as the loop reads it: config value with the JS || 3 default
(an absent or zero configured value falls back to 3). -/
def effectiveMaxRetries (cfg : Option Nat) : Nat :=
  match cfg with
  | none => 3
  | some n => if n = 0 then 3 else n

/-! ## Query-string building (lines 117 to 136 of client.ts) -/

/-- A query parameter value after String(v) conversion of primitives:
null and undefined are skipped, arrays append one pair per element. -/
inductive QueryVal where
  | null
  | undef
  | prim (s : String)
  | arr (elems : List String)
deriving DecidableEq

def isNullish : QueryVal → Bool
  | .null => true
  | .undef => true
  | _ => false

/-- The key-value pairs appended to URLSearchParams, in order. -/
def buildQueryPairs (q : List (String × QueryVal)) : List (String × String) :=
  q.flatMap (fun kv =>
    match kv.2 with
    | .null => []
    | .undef => []
    | .prim s => [(kv.1, s)]
    | .arr elems => elems.map (fun e => (kv.1, e)))

/-- Characters URLSearchParams leaves unescaped in
application/x-www-form-urlencoded serialization. -/
def formSafeChar (c : Char) : Bool :=
  c.isAlphanum || c = '*' || c = '-' || c = '.' || c = '_'

def percentHex (b : Nat) : List Char :=
  ['%', "0123456789ABCDEF".toList.getD (b / 16) '0',
   "0123456789ABCDEF".toList.getD (b % 16) '0']

def formEncodeChar (c : Char) : List Char :=
  if formSafeChar c then [c]
  else if c = ' ' then ['+']
  else (utf8EncodeChar c).flatMap percentHex

def formEncode (s : String) : String :=
  String.mk (s.toList.flatMap formEncodeChar)

/-- URLSearchParams.toString over the appended pairs. -/
def renderQueryString (pairs : List (String × String)) : String :=
  String.intercalate "&" (pairs.map (fun kv => formEncode kv.1 ++ "=" ++ formEncode kv.2))

/-- The test path.startsWith("/") on the code points of the path. -/
def pathStartsWithSlash (path : String) : Bool :=
  match path.toList with
  | [] => false
  | c :: _ => c = '/'

/-- Path normalization plus query attachment from request. -/
def buildPath (path : String) (query : Option (List (String × QueryVal))) : String :=
  let p := if pathStartsWithSlash path then path else "/" ++ path
  match query with
  | none => p
  | some q =>
      let queryString := renderQueryString (buildQueryPairs q)
      if queryString = "" then p else p ++ "?" ++ queryString

/-! ## Pagination (src/core/pagination.ts) -/

structure Pagination where
  currentPageNumber : Nat
  totalItemCount : Nat := 0
  itemCountPerPage : Nat := 0
  currentItemCount : Nat := 0
  pageCount : Nat
deriving DecidableEq

/-- The fields of ApiResponse that the page iterator reads. -/
structure ListResponse (α : Type) where
  data : Option (List α) := none
  pagination : Option Pagination := none

structure PaginatedList (α : Type) where
  data : List α
  pagination : Option Pagination := none
  fetchNextPage : Option (Nat → ListResponse α) := none

def PaginatedList.hasMore (pl : PaginatedList α) : Bool :=
  match pl.pagination with
  | none => false
  | some pg => pg.currentPageNumber < pg.pageCount

def PaginatedList.currentPage (pl : PaginatedList α) : Nat :=
  match pl.pagination with
  | none => 1
  | some pg => pg.currentPageNumber

def PaginatedList.totalPages (pl : PaginatedList α) : Nat :=
  match pl.pagination with
  | none => 1
  | some pg => pg.pageCount

/-- The while loop of the asynchronous iterator: guard nextPage ≤ the
ORIGINAL pageCount; fetch; yield data when present (absent data yields
nothing but does NOT break); break when the fetched page has no pagination
block or its pageCount is not beyond nextPage; else advance.  Fuel bounds
the recursion; the initial fuel totalPages + 1 exceeds the number of
guard-passing iterations, so the fuel-exhausted branch is never taken.
Returns the yielded items and the pages requested from the fetch
capability, each in order. -/
def fetchLoop (fetch : Nat → ListResponse α) (totalPages : Nat) :
    Nat → Nat → List α × List Nat
  | _, 0 => ([], [])
  | nextPage, fuel + 1 =>
      if nextPage ≤ totalPages then
        let response := fetch nextPage
        let yielded := response.data.getD []
        match response.pagination with
        | none => (yielded, [nextPage])
        | some pg =>
            if pg.pageCount ≤ nextPage then (yielded, [nextPage])
            else
              let rest := fetchLoop fetch totalPages (nextPage + 1) fuel
              (yielded ++ rest.1, nextPage :: rest.2)
      else ([], [])

/-- The asynchronous iterator run to completion: current page first, then
the fetch loop when hasMore and a fetch capability exists. -/
def asyncIterAll (pl : PaginatedList α) : List α × List Nat :=
  if pl.hasMore then
    match pl.fetchNextPage with
    | some fetch =>
        let rest := fetchLoop fetch pl.totalPages (pl.currentPage + 1) (pl.totalPages + 1)
        (pl.data ++ rest.1, rest.2)
    | none => (pl.data, [])
  else (pl.data, [])

/-! ## Behaviour of the retry loop -/

theorem retryGo_ok (t : Nat → AttemptOutcome) (attempt k : Nat) (v : ApiBody)
    (h : runAttempt (t attempt) = .ok v) :
    retryGo t attempt (k + 1) = ⟨.ok v, 1, []⟩ := by
  rw [retryGo, h]

theorem retryGo_noRetry (t : Nat → AttemptOutcome) (attempt k : Nat) (e : ReqError)
    (h : runAttempt (t attempt) = .error e) (hn : noRetry e = true) :
    retryGo t attempt (k + 1) = ⟨.error e, 1, []⟩ := by
  rw [retryGo, h]
  simp [hn]

theorem retryGo_final (t : Nat → AttemptOutcome) (attempt : Nat) (e : ReqError)
    (h : runAttempt (t attempt) = .error e) :
    retryGo t attempt 1 = ⟨.error e, 1, []⟩ := by
  rw [retryGo, h]
  by_cases hn : noRetry e = true
  · simp [hn]
  · simp [hn]

theorem retryGo_step (t : Nat → AttemptOutcome) (attempt k : Nat) (e : ReqError)
    (h : runAttempt (t attempt) = .error e) (hn : noRetry e = false) :
    retryGo t attempt (k + 2) =
      ⟨(retryGo t (attempt + 1) (k + 1)).result,
       (retryGo t (attempt + 1) (k + 1)).calls + 1,
       backoffDelay attempt :: (retryGo t (attempt + 1) (k + 1)).delays⟩ := by
  rw [retryGo, h]
  simp [hn]

/-- Shifting the attempt counter by one in the recorded delay list. -/
theorem delays_shift (attempt n : Nat) :
    backoffDelay attempt :: (List.range n).map (fun i => backoffDelay (attempt + 1 + i))
      = (List.range (n + 1)).map (fun i => backoffDelay (attempt + i)) := by
  rw [List.range_succ_eq_map, List.map_cons, List.map_map]
  simp only [Nat.add_zero, List.cons.injEq, true_and]
  apply List.map_congr_left
  intro i _
  have h1 : attempt + 1 + i = attempt + Nat.succ i := by omega
  simp [Function.comp, h1]

/-- After j leading retryable failures, a success on attempt number
attempt + j ends the loop with that value, j + 1 transport calls and the
j backoff delays in between. -/
theorem retryGo_success_after (t : Nat → AttemptOutcome) :
    ∀ (j attempt k : Nat) (v : ApiBody), j < k →
      (∀ i, i < j → ∃ e, runAttempt (t (attempt + i)) = .error e ∧ noRetry e = false) →
      runAttempt (t (attempt + j)) = .ok v →
      retryGo t attempt k =
        ⟨.ok v, j + 1, (List.range j).map (fun i => backoffDelay (attempt + i))⟩ := by
  intro j
  induction j with
  | zero =>
      intro attempt k v hk _ hok
      obtain ⟨k', rfl⟩ : ∃ k', k = k' + 1 := ⟨k - 1, by omega⟩
      simpa using retryGo_ok t attempt k' v (by simpa using hok)
  | succ j ih =>
      intro attempt k v hk hfail hok
      obtain ⟨k', rfl⟩ : ∃ k', k = k' + 2 := ⟨k - 2, by omega⟩
      obtain ⟨e, he, hne⟩ := hfail 0 (by omega)
      rw [retryGo_step t attempt k' e (by simpa using he) hne]
      have hfail' : ∀ i, i < j →
          ∃ e', runAttempt (t (attempt + 1 + i)) = .error e' ∧ noRetry e' = false := by
        intro i hi
        have := hfail (i + 1) (by omega)
        simpa [Nat.add_assoc, Nat.add_comm 1 i] using this
      have hok' : runAttempt (t (attempt + 1 + j)) = .ok v := by
        simpa [Nat.add_assoc, Nat.add_comm 1 j] using hok
      rw [ih (attempt + 1) (k' + 1) v (by omega) hfail' hok']
      congr 1 <;> first
        | rfl
        | omega
        | exact delays_shift attempt j

/-- After j leading retryable failures, a non-retryable failure on attempt
attempt + j is rethrown at once: j + 1 calls, j delays. -/
theorem retryGo_noRetry_after (t : Nat → AttemptOutcome) :
    ∀ (j attempt k : Nat) (e : ReqError), j < k →
      (∀ i, i < j → ∃ e', runAttempt (t (attempt + i)) = .error e' ∧ noRetry e' = false) →
      runAttempt (t (attempt + j)) = .error e → noRetry e = true →
      retryGo t attempt k =
        ⟨.error e, j + 1, (List.range j).map (fun i => backoffDelay (attempt + i))⟩ := by
  intro j
  induction j with
  | zero =>
      intro attempt k e hk _ herr hn
      obtain ⟨k', rfl⟩ : ∃ k', k = k' + 1 := ⟨k - 1, by omega⟩
      simpa using retryGo_noRetry t attempt k' e (by simpa using herr) hn
  | succ j ih =>
      intro attempt k e hk hfail herr hn
      obtain ⟨k', rfl⟩ : ∃ k', k = k' + 2 := ⟨k - 2, by omega⟩
      obtain ⟨e0, he0, hne0⟩ := hfail 0 (by omega)
      rw [retryGo_step t attempt k' e0 (by simpa using he0) hne0]
      have hfail' : ∀ i, i < j →
          ∃ e', runAttempt (t (attempt + 1 + i)) = .error e' ∧ noRetry e' = false := by
        intro i hi
        have := hfail (i + 1) (by omega)
        simpa [Nat.add_assoc, Nat.add_comm 1 i] using this
      have herr' : runAttempt (t (attempt + 1 + j)) = .error e := by
        simpa [Nat.add_assoc, Nat.add_comm 1 j] using herr
      rw [ih (attempt + 1) (k' + 1) e (by omega) hfail' herr' hn]
      congr 1 <;> first
        | rfl
        | omega
        | exact delays_shift attempt j

/-- When every allowed attempt fails with a retryable error, the loop runs
all k attempts, sleeps k - 1 times, and rethrows the LAST error unchanged. -/
theorem retryGo_exhaust (t : Nat → AttemptOutcome) :
    ∀ (k attempt : Nat) (err : Nat → ReqError), 1 ≤ k →
      (∀ i, i < k → runAttempt (t (attempt + i)) = .error (err i) ∧ noRetry (err i) = false) →
      retryGo t attempt k =
        ⟨.error (err (k - 1)), k, (List.range (k - 1)).map (fun i => backoffDelay (attempt + i))⟩ := by
  intro k
  induction k with
  | zero => omega
  | succ k ih =>
      intro attempt err hk hfail
      match k, ih with
      | 0, _ =>
          obtain ⟨he, _⟩ := hfail 0 (by omega)
          simpa using retryGo_final t attempt (err 0) (by simpa using he)
      | k' + 1, ih =>
          obtain ⟨he0, hne0⟩ := hfail 0 (by omega)
          rw [retryGo_step t attempt k' (err 0) (by simpa using he0) hne0]
          have hfail' : ∀ i, i < k' + 1 →
              runAttempt (t (attempt + 1 + i)) = .error (err (i + 1)) ∧
                noRetry (err (i + 1)) = false := by
            intro i hi
            have := hfail (i + 1) (by omega)
            simpa [Nat.add_assoc, Nat.add_comm 1 i] using this
          rw [ih (attempt + 1) (fun i => err (i + 1)) (by omega) hfail']
          simp only [Nat.add_sub_cancel]
          congr 1 <;> first
            | rfl
            | omega
            | exact delays_shift attempt k'

/-! ## Claim theorems: pagination -/

/-- Claim C7: for every paginated list, hasMore is true iff a pagination
cursor is present and currentPageNumber < pageCount; it is false for page 3
of 3, true for page 1 of 3, and false whenever the cursor is absent. -/
theorem hasMore_iff_cursor_and_more_pages :
    (∀ (α : Type) (pl : PaginatedList α),
      pl.hasMore = true ↔
        ∃ pg, pl.pagination = some pg ∧ pg.currentPageNumber < pg.pageCount) ∧
    (⟨[], some ⟨3, 0, 0, 0, 3⟩, none⟩ : PaginatedList Unit).hasMore = false ∧
    (⟨[], some ⟨1, 0, 0, 0, 3⟩, none⟩ : PaginatedList Unit).hasMore = true ∧
    (∀ (α : Type) (pl : PaginatedList α), pl.pagination = none → pl.hasMore = false) := by
  refine ⟨?_, by decide, by decide, ?_⟩
  · intro α pl
    cases hp : pl.pagination with
    | none => simp [PaginatedList.hasMore, hp]
    | some pg => simp [PaginatedList.hasMore, hp]
  · intro α pl hp
    simp [PaginatedList.hasMore, hp]

/-- Witness for C7 at a concrete cursor-free list. -/
theorem hasMore_iff_cursor_and_more_pages_witness :
    (⟨[()], none, none⟩ : PaginatedList Unit).hasMore = false :=
  hasMore_iff_cursor_and_more_pages.2.2.2 Unit ⟨[()], none, none⟩ rfl

/-! ## Claim theorems: query encoding -/

/-- The query object of the specification example, with String(v) already
applied to the primitives 1, 2, 3. -/
def c8Example : List (String × QueryVal) :=
  [("a", .prim "1"), ("b", .arr ["2", "3"]), ("c", .null)]

/-- Claim C8: query parameters are appended to the URL with arrays expanded
into repeated keys and null/undefined entries skipped entirely; the mapping
a to 1, b to the array 2 3, c to null yields a=1&b=2&b=3 with no c at all. -/
theorem query_params_encoding :
    buildPath "/transaction" (some c8Example) = "/transaction?a=1&b=2&b=3" ∧
    (∀ v, ("c", v) ∉ buildQueryPairs c8Example) ∧
    (∀ q : List (String × QueryVal),
      buildQueryPairs (q.filter (fun kv => !isNullish kv.2)) = buildQueryPairs q) ∧
    (∀ (k : String) (elems : List String) (rest : List (String × QueryVal)),
      buildQueryPairs ((k, .arr elems) :: rest) =
        elems.map (fun e => (k, e)) ++ buildQueryPairs rest) := by
  refine ⟨by decide, ?_, ?_, ?_⟩
  · have hp : buildQueryPairs c8Example = [("a", "1"), ("b", "2"), ("b", "3")] := by decide
    intro v
    rw [hp]
    simp
  · intro q
    induction q with
    | nil => rfl
    | cons hd tl ih =>
        obtain ⟨k, v⟩ := hd
        cases v <;> simp [buildQueryPairs, isNullish, List.filter] at ih ⊢ <;>
          simpa [buildQueryPairs] using ih
  · intro k elems rest
    simp [buildQueryPairs]

/-- Witness for C8: skipping nullish entries leaves the example pairs
unchanged. -/
theorem query_params_encoding_witness :
    buildQueryPairs (c8Example.filter (fun kv => !isNullish kv.2)) =
      buildQueryPairs c8Example :=
  query_params_encoding.2.2.1 c8Example

/-! ## Claim theorems: asynchronous page iteration -/

/-- Page 1 of 3 whose page-2 fetch delivers a response WITHOUT a data array
but with a pagination block still announcing three pages. -/
def absentDataFetch : Nat → ListResponse String :=
  fun n =>
    if n = 2 then ⟨none, some ⟨2, 0, 0, 0, 3⟩⟩
    else ⟨some ["c"], some ⟨3, 0, 0, 0, 3⟩⟩

def absentDataList : PaginatedList String :=
  ⟨["a"], some ⟨1, 0, 0, 0, 3⟩, some absentDataFetch⟩

/-- Counterexample to claim C6 as stated: the claim says the iteration
stops when the data of a fetched page is absent, which would give exactly one
fetch (page 2) and only the held items.  The iterator instead skips the
yield and keeps going: it also fetches page 3 and yields its items. -/
theorem asyncIter_does_not_stop_on_absent_data :
    asyncIterAll absentDataList = (["a", "c"], [2, 3]) ∧
    ([2, 3] : List Nat) ≠ [2] ∧ (["a", "c"] : List String) ≠ ["a"] := by
  refine ⟨by decide, by decide, by decide⟩

/-- A three-page fetch stub: every fetched page n reports page n of 3. -/
def threePageFetch (d2 d3 : List α) : Nat → ListResponse α :=
  fun n => ⟨some (if n = 2 then d2 else d3), some ⟨n, 0, 0, 0, 3⟩⟩

def threePageList (d1 d2 d3 : List α) : PaginatedList α :=
  ⟨d1, some ⟨1, 0, 0, 0, 3⟩, some (threePageFetch d2 d3)⟩

/-- Claim C6 amended: sequential iteration first yields the items of the current
page, then, while more pages are reported and a fetch capability exists,
fetches successive page numbers and yields their items in page-arrival
order; it stops when a fetched page carries no pagination block or reports
no page beyond the requested number; a fetched page with absent data
contributes no items but does not stop the walk.  For a first page with
pageCount 3 the fetch capability is invoked exactly twice, for pages 2 and
3, and all items of all three pages come out in order. -/
theorem asyncIterAll_walk :
    (∀ (α : Type) (pl : PaginatedList α),
      ∃ rest, (asyncIterAll pl).1 = pl.data ++ rest) ∧
    (∀ (α : Type) (pl : PaginatedList α), pl.hasMore = false →
      asyncIterAll pl = (pl.data, [])) ∧
    (∀ (α : Type) (pl : PaginatedList α), pl.fetchNextPage = none →
      asyncIterAll pl = (pl.data, [])) ∧
    (∀ (α : Type) (fetch : Nat → ListResponse α) (tp np fuel : Nat) (pg : Pagination),
      np ≤ tp → (fetch np).data = none → (fetch np).pagination = some pg →
      np < pg.pageCount →
      fetchLoop fetch tp np (fuel + 1) =
        ((fetchLoop fetch tp (np + 1) fuel).1, np :: (fetchLoop fetch tp (np + 1) fuel).2)) ∧
    (∀ (α : Type) (fetch : Nat → ListResponse α) (tp np fuel : Nat),
      np ≤ tp → (fetch np).pagination = none →
      fetchLoop fetch tp np (fuel + 1) = ((fetch np).data.getD [], [np])) ∧
    (∀ (α : Type) (fetch : Nat → ListResponse α) (tp np fuel : Nat) (pg : Pagination),
      np ≤ tp → (fetch np).pagination = some pg → pg.pageCount ≤ np →
      fetchLoop fetch tp np (fuel + 1) = ((fetch np).data.getD [], [np])) ∧
    (∀ (α : Type) (d1 d2 d3 : List α),
      asyncIterAll (threePageList d1 d2 d3) = (d1 ++ d2 ++ d3, [2, 3])) := by
  refine ⟨?_, ?_, ?_, ?_, ?_, ?_, ?_⟩
  · intro α pl
    by_cases h : pl.hasMore
    · cases hf : pl.fetchNextPage with
      | none => exact ⟨[], by simp [asyncIterAll, h, hf]⟩
      | some fetch =>
          refine ⟨(fetchLoop fetch pl.totalPages (pl.currentPage + 1) (pl.totalPages + 1)).1, ?_⟩
          simp [asyncIterAll, h, hf]
    · exact ⟨[], by simp [asyncIterAll, h]⟩
  · intro α pl h
    simp [asyncIterAll, h]
  · intro α pl h
    by_cases hm : pl.hasMore <;> simp [asyncIterAll, h, hm]
  · intro α fetch tp np fuel pg hle hdata hpg hmore
    rw [fetchLoop, if_pos hle]
    simp only [hpg, hdata, Option.getD_none]
    rw [if_neg (by omega)]
    simp
  · intro α fetch tp np fuel hle hpg
    rw [fetchLoop, if_pos hle]
    simp [hpg]
  · intro α fetch tp np fuel pg hle hpg hstop
    rw [fetchLoop, if_pos hle]
    simp [hpg, hstop]
  · intro α d1 d2 d3
    simp [asyncIterAll, threePageList, PaginatedList.hasMore, PaginatedList.currentPage,
      PaginatedList.totalPages, threePageFetch, fetchLoop]

/-- Witness for C6 on a concrete three-page walk. -/
theorem asyncIterAll_walk_witness :
    asyncIterAll (threePageList ["a"] ["b"] ["c"]) = (["a", "b", "c"], [2, 3]) :=
  asyncIterAll_walk.2.2.2.2.2.2 String ["a"] ["b"] ["c"]

/-! ## Claim theorems: retry policy -/

def okBody : ApiBody := ⟨none, none, none⟩

/-- A transport that fails twice with HTTP 500 and succeeds on the third
invocation. -/
def stub500 : Nat → AttemptOutcome :=
  fun attempt =>
    if attempt ≤ 2 then .respond false 500 (.ok okBody) else .respond true 200 (.ok okBody)

/-- A transport that always fails with HTTP 400. -/
def stub400 : Nat → AttemptOutcome :=
  fun _ => .respond false 400 (.ok okBody)

/-- Claim C2: a failure whose structured error carries an HTTP status code
below 500 is thrown at once with no further transport invocation; any other
failure is retried up to maxRetries total attempts with delays of
min(1000 times 2 to the attempt minus 1, 10000) milliseconds in between;
after the final attempt the last error is raised unchanged; the configured
default is 3 attempts; failing twice with 500 then succeeding yields the
success with exactly 3 invocations, and failing with 400 yields immediate
failure with exactly 1 invocation.  An HTTP status code is positive, which
is what the truthiness test of the catch clause relies on. -/
theorem request_retry_policy (t : Nat → AttemptOutcome) (maxRetries : Nat)
    (hm : 1 ≤ maxRetries) :
    (∀ (j : Nat) (d : XMoneyErrorData) (s : Nat), j < maxRetries →
      (∀ i, i < j → ∃ e, runAttempt (t (1 + i)) = .error e ∧ noRetry e = false) →
      runAttempt (t (1 + j)) = .error (.xmoney d) →
      d.statusCode = some s → 0 < s → s < 500 →
      xmoneyRequest t maxRetries =
        ⟨.error (.xmoney d), j + 1,
         (List.range j).map (fun i => min (1000 * 2 ^ i) 10000)⟩) ∧
    (∀ (j : Nat) (v : ApiBody), j < maxRetries →
      (∀ i, i < j → ∃ e, runAttempt (t (1 + i)) = .error e ∧ noRetry e = false) →
      runAttempt (t (1 + j)) = .ok v →
      xmoneyRequest t maxRetries =
        ⟨.ok v, j + 1, (List.range j).map (fun i => min (1000 * 2 ^ i) 10000)⟩) ∧
    (∀ err : Nat → ReqError,
      (∀ i, i < maxRetries →
        runAttempt (t (1 + i)) = .error (err i) ∧ noRetry (err i) = false) →
      xmoneyRequest t maxRetries =
        ⟨.error (err (maxRetries - 1)), maxRetries,
         (List.range (maxRetries - 1)).map (fun i => min (1000 * 2 ^ i) 10000)⟩) ∧
    effectiveMaxRetries none = 3 ∧
    xmoneyRequest stub500 3 = ⟨.ok okBody, 3, [1000, 2000]⟩ ∧
    xmoneyRequest stub400 3 =
      ⟨.error (.xmoney ⟨"Request failed", some 400, none, none⟩), 1, []⟩ := by
  have hdelay : ∀ j : Nat,
      (List.range j).map (fun i => backoffDelay (1 + i)) =
        (List.range j).map (fun i => min (1000 * 2 ^ i) 10000) := by
    intro j
    apply List.map_congr_left
    intro i _
    simp [backoffDelay, Nat.add_sub_cancel_left]
  refine ⟨?_, ?_, ?_, by decide, by decide, by decide⟩
  · intro j d s hj hfail herr hsc hpos hlt
    have hn : noRetry (.xmoney d) = true := by
      simp [noRetry, hsc]
      omega
    have := retryGo_noRetry_after t j 1 maxRetries (.xmoney d) hj hfail herr hn
    rw [xmoneyRequest, this, hdelay j]
  · intro j v hj hfail hok
    have := retryGo_success_after t j 1 maxRetries v hj hfail hok
    rw [xmoneyRequest, this, hdelay j]
  · intro err hfail
    have := retryGo_exhaust t maxRetries 1 err hm hfail
    rw [xmoneyRequest, this, hdelay (maxRetries - 1)]

/-- Witness for C2: the two concrete transport stubs, plus the immediate
4xx rejection derived from the first clause at attempt 1. -/
theorem request_retry_policy_witness :
    xmoneyRequest stub500 3 = ⟨.ok okBody, 3, [1000, 2000]⟩ ∧
    xmoneyRequest stub400 3 =
      ⟨.error (.xmoney ⟨"Request failed", some 400, none, none⟩), 1, []⟩ ∧
    xmoneyRequest stub400 3 =
      ⟨.error (.xmoney ⟨"Request failed", some 400, none, none⟩), 0 + 1,
       (List.range 0).map (fun i => min (1000 * 2 ^ i) 10000)⟩ :=
  ⟨(request_retry_policy stub500 3 (by decide)).2.2.2.2.1,
   (request_retry_policy stub400 3 (by decide)).2.2.2.2.2,
   (request_retry_policy stub400 3 (by decide)).1 0 ⟨"Request failed", some 400, none, none⟩
     400 (by decide) (fun i hi => absurd hi (by omega)) (by decide) rfl (by decide) (by decide)⟩

/-! ## Claim theorems: body parse failure precedes the status check -/

/-- Claim C9: when the transport returns a non-2xx response whose body is
not valid JSON, the parse failure is raised before the status check, so the
error is not a structured API error, carries no status code, and the
request is retried to exhaustion like a network failure, even on a 4xx
status. -/
theorem parse_failure_retried (maxRetries status : Nat) (m : String)
    (hm : 1 ≤ maxRetries) :
    (∀ (ok : Bool) (st : Nat),
      runAttempt (.respond ok st (.error (.other m))) = .error (.other m)) ∧
    (ReqError.other m).statusCode = none ∧
    (ReqError.other m).isXMoney = false ∧
    noRetry (.other m) = false ∧
    xmoneyRequest (fun _ => .respond false status (.error (.other m))) maxRetries =
      ⟨.error (.other m), maxRetries,
       (List.range (maxRetries - 1)).map (fun i => min (1000 * 2 ^ i) 10000)⟩ := by
  refine ⟨fun ok st => rfl, rfl, rfl, rfl, ?_⟩
  have hdelay :
      (List.range (maxRetries - 1)).map (fun i => backoffDelay (1 + i)) =
        (List.range (maxRetries - 1)).map (fun i => min (1000 * 2 ^ i) 10000) := by
    apply List.map_congr_left
    intro i _
    simp [backoffDelay, Nat.add_sub_cancel_left]
  have := retryGo_exhaust (fun _ => .respond false status (.error (.other m)))
    maxRetries 1 (fun _ => .other m) hm (fun i _ => ⟨rfl, rfl⟩)
  rw [xmoneyRequest, this, hdelay]

/-- Witness for C9 at a 400 status whose body fails to parse: three calls,
two backoffs, error without status code. -/
theorem parse_failure_retried_witness :
    xmoneyRequest (fun _ => .respond false 400 (.error (.other "SyntaxError"))) 3 =
      ⟨.error (.other "SyntaxError"), 3,
       (List.range (3 - 1)).map (fun i => min (1000 * 2 ^ i) 10000)⟩ ∧
    (ReqError.other "SyntaxError").statusCode = none :=
  ⟨(parse_failure_retried 3 400 "SyntaxError" (by decide)).2.2.2.2,
   (parse_failure_retried 3 400 "SyntaxError" (by decide)).2.1⟩

/-! ## Claim theorems: public key validation -/

def trivialHmac : String → String → List Nat :=
  fun _ _ => []

def baseCustomer : CustomerInfo :=
  ⟨"cust", none, none, none, none, none, none, none⟩

def baseOrder : OrderInfo :=
  ⟨"o1", .purchase, "1000", "EUR", "d"⟩

def mkParams (pk : String) (sc : JsOpt Bool) : CheckoutCreateParams :=
  ⟨pk, .auth, none, sc, "https://shop.example/back", none, baseCustomer, baseOrder⟩

/-- Claim C3: checkout create validates the public key before building any
payload: an absent or empty key fails with the missing-key message, one
that does not match pk_(test|live)_(.+) fails with the distinct
malformed-key message, and pk_test_abc and pk_live_xyz succeed, with site
identifiers abc and xyz. -/
theorem checkout_public_key_validation (hmac : String → String → List Nat)
    (apiKey : String) :
    (∀ p : CheckoutCreateParams, p.publicKey = "" →
      checkoutCreate hmac apiKey p = .error "Public key is required for hosted checkout") ∧
    (∀ p : CheckoutCreateParams, p.publicKey = "invalid" →
      checkoutCreate hmac apiKey p =
        .error "Invalid public key format. Expected: pk_<env>_<key>") ∧
    (∀ p : CheckoutCreateParams, p.publicKey = "pk_staging_abc" →
      checkoutCreate hmac apiKey p =
        .error "Invalid public key format. Expected: pk_<env>_<key>") ∧
    ("Public key is required for hosted checkout" : String) ≠
      "Invalid public key format. Expected: pk_<env>_<key>" ∧
    validatePublicKey "pk_test_abc" = .ok "abc" ∧
    validatePublicKey "pk_live_xyz" = .ok "xyz" ∧
    (∀ p : CheckoutCreateParams,
      (checkoutCreate hmac apiKey p).isOk = (validatePublicKey p.publicKey).isOk) := by
  refine ⟨?_, ?_, ?_, by decide, by decide, by decide, ?_⟩
  · intro p h
    simp [checkoutCreate, validatePublicKey, h]
  · intro p h
    have hm : matchPublicKey "invalid" = none := by decide
    simp [checkoutCreate, validatePublicKey, h, hm]
  · intro p h
    have hm : matchPublicKey "pk_staging_abc" = none := by decide
    simp [checkoutCreate, validatePublicKey, h, hm]
  · intro p
    rw [checkoutCreate]
    cases validatePublicKey p.publicKey <;> rfl

/-- Witness for C3 on concrete params records. -/
theorem checkout_public_key_validation_witness :
    checkoutCreate trivialHmac "key" (mkParams "" .absent) =
      .error "Public key is required for hosted checkout" ∧
    checkoutCreate trivialHmac "key" (mkParams "invalid" .absent) =
      .error "Invalid public key format. Expected: pk_<env>_<key>" ∧
    checkoutCreate trivialHmac "key" (mkParams "pk_staging_abc" .absent) =
      .error "Invalid public key format. Expected: pk_<env>_<key>" :=
  ⟨(checkout_public_key_validation trivialHmac "key").1 (mkParams "" .absent) rfl,
   (checkout_public_key_validation trivialHmac "key").2.1 (mkParams "invalid" .absent) rfl,
   (checkout_public_key_validation trivialHmac "key").2.2.1
     (mkParams "pk_staging_abc" .absent) rfl⟩

/-! ## Claim theorems: decrypt error paths -/

def aesStub : String → String → String → String :=
  fun _ _ _ => "x"

def jsonParseNone : String → Option JsValue :=
  fun _ => none

/-- Counterexample to claim C4 as stated.  On the input a,,x splitting on
the FIRST comma yields the two non-empty segments a and ,x, so the claim
promises the parse-specific error when the decrypted bytes are not JSON
(here the parse oracle always fails).  The code instead splits on every
comma, keeps the first two fields a and the EMPTY field between the two
commas, and fails with the invalid-format error, never reaching
decryption. -/
theorem decrypt_first_comma_counterexample :
    specFirstCommaSplit "a,,x" = ["a", ",x"] ∧
    ("a" : String) ≠ "" ∧ ("," ++ "x" : String) ≠ "" ∧
    checkoutDecrypt aesStub jsonParseNone "key" "a,,x" =
      (.error "Invalid encrypted response format", false) ∧
    ("Invalid encrypted response format" : String) ≠
      "Failed to parse decrypted response" := by
  refine ⟨by decide, by decide, by decide, rfl, by decide⟩

/-- Claim C4 amended: the input is split on EVERY comma and only the first
two fields are kept, as JS split with limit 2 does.  If either kept field
is empty or missing (inputs like ivOnly or ,cipherOnly or ivOnly, — or a
second field that is empty because two commas are adjacent), the call fails
with the invalid-format error and no decryption is attempted; when both
fields are non-empty but the decrypted bytes do not parse as JSON, the call
fails with the distinct parse error, so the two failure kinds remain
distinguishable. -/
theorem decrypt_error_paths (aes : String → String → String → String)
    (jsonParse : String → Option JsValue) (apiKey : String) :
    (∀ s : String,
      (splitCommaLimit2 s).getD 0 "" = "" ∨ (splitCommaLimit2 s).getD 1 "" = "" →
      checkoutDecrypt aes jsonParse apiKey s =
        (.error "Invalid encrypted response format", false)) ∧
    (∀ s iv ct : String, splitCommaLimit2 s = [iv, ct] → iv ≠ "" → ct ≠ "" →
      jsonParse (aes apiKey iv ct) = none →
      checkoutDecrypt aes jsonParse apiKey s =
        (.error "Failed to parse decrypted response", true)) ∧
    (∀ (s iv ct : String) (v : JsValue), splitCommaLimit2 s = [iv, ct] →
      iv ≠ "" → ct ≠ "" → jsonParse (aes apiKey iv ct) = some v →
      checkoutDecrypt aes jsonParse apiKey s = (.ok v, true)) ∧
    checkoutDecrypt aes jsonParse apiKey "ivOnly" =
      (.error "Invalid encrypted response format", false) ∧
    checkoutDecrypt aes jsonParse apiKey ",cipherOnly" =
      (.error "Invalid encrypted response format", false) ∧
    checkoutDecrypt aes jsonParse apiKey "ivOnly," =
      (.error "Invalid encrypted response format", false) ∧
    ("Invalid encrypted response format" : String) ≠
      "Failed to parse decrypted response" := by
  refine ⟨?_, ?_, ?_, ?_, ?_, ?_, by decide⟩
  · intro s h
    rw [checkoutDecrypt]
    simp only []
    rw [if_pos h]
  · intro s iv ct hsplit hiv hct hparse
    rw [checkoutDecrypt]
    simp only [hsplit]
    rw [if_neg (by simp [List.getD, hiv, hct])]
    simp [List.getD, hparse]
  · intro s iv ct v hsplit hiv hct hparse
    rw [checkoutDecrypt]
    simp only [hsplit]
    rw [if_neg (by simp [List.getD, hiv, hct])]
    simp [List.getD, hparse]
  · have h : (splitCommaLimit2 "ivOnly").getD 1 "" = "" := by decide
    rw [checkoutDecrypt]
    simp only []
    rw [if_pos (Or.inr h)]
  · have h : (splitCommaLimit2 ",cipherOnly").getD 0 "" = "" := by decide
    rw [checkoutDecrypt]
    simp only []
    rw [if_pos (Or.inl h)]
  · have h : (splitCommaLimit2 "ivOnly,").getD 1 "" = "" := by decide
    rw [checkoutDecrypt]
    simp only []
    rw [if_pos (Or.inr h)]

/-- Witness for C4: both failure kinds on concrete inputs through the
always-failing parse oracle. -/
theorem decrypt_error_paths_witness :
    checkoutDecrypt aesStub jsonParseNone "key" "ivOnly" =
      (.error "Invalid encrypted response format", false) ∧
    checkoutDecrypt aesStub jsonParseNone "key" "iv,ct" =
      (.error "Failed to parse decrypted response", true) :=
  ⟨(decrypt_error_paths aesStub jsonParseNone "key").2.2.2.1,
   (decrypt_error_paths aesStub jsonParseNone "key").2.1 "iv,ct" "iv" "ct"
     (by decide) (by decide) (by decide) rfl⟩

/-! ## Claim theorems: the checkout payload object and its serialization -/

/-- The value the saveCard property ends up with in the payload object:
the nullish-coalescing default first, then the spread overwrite. -/
def finalSaveCard : JsOpt Bool → JsValue
  | .absent => .bool false
  | .undef => .undefined
  | .val b => .bool b

/-- Shape of the object literal with siteId, the defaulted saveCard and the
spread of params: the spread replaces saveCard in place when the key is
present and appends every other caller field behind the two seeds. -/
theorem buildCheckoutData_eq (siteId : String) (p : CheckoutCreateParams) :
    buildCheckoutData siteId p =
      ("siteId", .str siteId) :: ("saveCard", finalSaveCard p.saveCard) ::
        (paramsFields p).filter (fun kv => kv.1 ≠ "saveCard") := by
  rcases p with ⟨pk, mode, ie, sc, burl, cd, cust, ord⟩
  rcases ie with _ | ie <;> rcases cd with _ | cd <;> rcases sc with _ | _ | b <;>
    simp [buildCheckoutData, paramsFields, mergeSpread, setKey, optField,
      jsOptBoolField, finalSaveCard]

theorem serializedKeys_cons_some (k : String) (v : JsValue)
    (rest : List (String × JsValue)) (sv : String) (h : jsonStringify v = some sv) :
    serializedKeys ((k, v) :: rest) = k :: serializedKeys rest := by
  simp [serializedKeys, List.filterMap_cons, h]

theorem serializedKeys_cons_none (k : String) (v : JsValue)
    (rest : List (String × JsValue)) (h : jsonStringify v = none) :
    serializedKeys ((k, v) :: rest) = serializedKeys rest := by
  simp [serializedKeys, List.filterMap_cons, h]

/-- No key k survives in the serialization of a list filtered to keys
other than k. -/
theorem serializedKeys_filter_ne (l : List (String × JsValue)) (k : String) :
    k ∉ serializedKeys (l.filter (fun kv => kv.1 ≠ k)) := by
  intro hmem
  simp only [serializedKeys, List.mem_filterMap, List.mem_filter] at hmem
  obtain ⟨kv, ⟨_, hpred⟩, hsome⟩ := hmem
  cases hjs : jsonStringify kv.2 with
  | none => rw [hjs] at hsome; simp at hsome
  | some sv =>
      rw [hjs] at hsome
      simp at hsome hpred
      exact hpred hsome

/-- Claim C1: the string whose UTF-8 bytes are base64-encoded into the
payload and the string fed to the HMAC keyed by the apiKey are the SAME
JSON serialization of the same data object, and base64-decoding the payload
recovers exactly its UTF-8 bytes. -/
theorem checkout_payload_checksum_same_string
    (hmac : String → String → List Nat) (apiKey : String)
    (p : CheckoutCreateParams) (siteId : String)
    (h : validatePublicKey p.publicKey = .ok siteId) :
    checkoutCreate hmac apiKey p =
      .ok ⟨base64Encode (utf8Encode (objStringifyL (buildCheckoutData siteId p))),
           base64Encode (hmac apiKey (objStringifyL (buildCheckoutData siteId p)))⟩ ∧
    base64Decode (base64Encode (utf8Encode (objStringifyL (buildCheckoutData siteId p)))) =
      some (utf8Encode (objStringifyL (buildCheckoutData siteId p))) := by
  constructor
  · rw [checkoutCreate, h]
    rfl
  · exact base64Decode_base64Encode _ (utf8Encode_lt _)

def c1Params : CheckoutCreateParams := mkParams "pk_test_ab" .absent

/-- Witness for C1 at a concrete params record. -/
theorem checkout_payload_checksum_same_string_witness :
    checkoutCreate trivialHmac "key" c1Params =
      .ok ⟨base64Encode (utf8Encode (objStringifyL (buildCheckoutData "ab" c1Params))),
           base64Encode (trivialHmac "key" (objStringifyL (buildCheckoutData "ab" c1Params)))⟩ ∧
    base64Decode (base64Encode (utf8Encode (objStringifyL (buildCheckoutData "ab" c1Params)))) =
      some (utf8Encode (objStringifyL (buildCheckoutData "ab" c1Params))) :=
  checkout_payload_checksum_same_string trivialHmac "key" c1Params "ab" (by decide)

/-- Counterexample to claim C5 as stated: the spread of params also copies
the publicKey field into the canonical payload object, so the object does
NOT consist only of siteId, saveCard and the listed business fields; the
extra field also survives serialization. -/
theorem payload_contains_publicKey :
    lookupKey (buildCheckoutData "site789" (mkParams "pk_test_site789" .absent))
      "publicKey" = some (.str "pk_test_site789") ∧
    "publicKey" ∈
      serializedKeys (buildCheckoutData "site789" (mkParams "pk_test_site789" .absent)) :=
  ⟨rfl, by decide⟩

/-- Claim C5 amended: the canonical payload object is exactly the site
identifier, saveCard through the nullish default and the spread overwrite,
and then EVERY field of the caller params copied verbatim in order —
including publicKey, which the object spread copies as well. -/
theorem checkout_payload_object_fields (siteId : String) (p : CheckoutCreateParams) :
    buildCheckoutData siteId p =
      ("siteId", .str siteId) :: ("saveCard", finalSaveCard p.saveCard) ::
        (paramsFields p).filter (fun kv => kv.1 ≠ "saveCard") ∧
    lookupKey (buildCheckoutData siteId p) "publicKey" = some (.str p.publicKey) := by
  refine ⟨buildCheckoutData_eq siteId p, ?_⟩
  rw [buildCheckoutData_eq]
  simp [lookupKey, paramsFields, List.filter_cons]

def undefSaveCardParams : CheckoutCreateParams := mkParams "pk_test_s" .undef

def absentSaveCardParams : CheckoutCreateParams := mkParams "pk_test_s" .absent

def valFalseSaveCardParams : CheckoutCreateParams := mkParams "pk_test_s" (.val false)

/-- Counterexample to the ONLY-when-absent reading of claim C10: a caller
who passes saveCard explicitly as false also gets saveCard false into the
serialized payload, although the key is present in the params. -/
theorem saveCard_false_with_key_present :
    valFalseSaveCardParams.saveCard = .val false ∧
    valFalseSaveCardParams.saveCard ≠ .absent ∧
    lookupKey (buildCheckoutData "s" valFalseSaveCardParams) "saveCard" =
      some (.bool false) ∧
    "saveCard" ∈ serializedKeys (buildCheckoutData "s" valFalseSaveCardParams) :=
  ⟨rfl, by decide, rfl, by decide⟩

set_option maxRecDepth 10000 in
/-- Claim C10 amended: a saveCard key passed with the explicit value
undefined overwrites the false default through the spread, and since
JSON.stringify drops undefined members the payload JSON carries no saveCard
field at all; an entirely absent key yields saveCard false in the payload —
as does an explicitly passed false, so absence is not the only source of a
false saveCard.  The two closed conjuncts exhibit the serialized JSON with
and without the saveCard member. -/
theorem saveCard_undefined_dropped (siteId : String) (p : CheckoutCreateParams) :
    (p.saveCard = .undef →
      lookupKey (buildCheckoutData siteId p) "saveCard" = some .undefined ∧
      "saveCard" ∉ serializedKeys (buildCheckoutData siteId p)) ∧
    (p.saveCard = .absent →
      lookupKey (buildCheckoutData siteId p) "saveCard" = some (.bool false) ∧
      "saveCard" ∈ serializedKeys (buildCheckoutData siteId p)) ∧
    (∀ b : Bool, p.saveCard = .val b →
      lookupKey (buildCheckoutData siteId p) "saveCard" = some (.bool b)) ∧
    objStringifyL (buildCheckoutData "s" undefSaveCardParams) =
      "\x7b\"siteId\":\"s\",\"publicKey\":\"pk_test_s\",\"cardTransactionMode\":\"auth\",\"backUrl\":\"https://shop.example/back\",\"customer\":\x7b\"identifier\":\"cust\"\x7d,\"order\":\x7b\"orderId\":\"o1\",\"type\":\"purchase\",\"amount\":1000,\"currency\":\"EUR\",\"description\":\"d\"\x7d\x7d" ∧
    objStringifyL (buildCheckoutData "s" absentSaveCardParams) =
      "\x7b\"siteId\":\"s\",\"saveCard\":false,\"publicKey\":\"pk_test_s\",\"cardTransactionMode\":\"auth\",\"backUrl\":\"https://shop.example/back\",\"customer\":\x7b\"identifier\":\"cust\"\x7d,\"order\":\x7b\"orderId\":\"o1\",\"type\":\"purchase\",\"amount\":1000,\"currency\":\"EUR\",\"description\":\"d\"\x7d\x7d" := by
  refine ⟨?_, ?_, ?_, by decide, by decide⟩
  · intro hsc
    rw [buildCheckoutData_eq, hsc]
    constructor
    · simp [lookupKey, finalSaveCard]
    · rw [serializedKeys_cons_some "siteId" (.str siteId) _ (jsonQuote siteId) rfl,
          serializedKeys_cons_none "saveCard" (finalSaveCard .undef) _ rfl]
      intro hmem
      rcases List.mem_cons.mp hmem with h1 | h2
      · exact absurd h1 (by decide)
      · exact serializedKeys_filter_ne (paramsFields p) "saveCard" h2
  · intro hsc
    rw [buildCheckoutData_eq, hsc]
    constructor
    · simp [lookupKey, finalSaveCard]
    · rw [serializedKeys_cons_some "siteId" (.str siteId) _ (jsonQuote siteId) rfl,
          serializedKeys_cons_some "saveCard" (finalSaveCard .absent) _ "false" rfl]
      simp
  · intro b hsc
    rw [buildCheckoutData_eq, hsc]
    simp [lookupKey, finalSaveCard]

/-- Witness for C10 at the concrete records with an undefined and with an
absent saveCard key. -/
theorem saveCard_undefined_dropped_witness :
    (lookupKey (buildCheckoutData "s" undefSaveCardParams) "saveCard" =
      some .undefined ∧
     "saveCard" ∉ serializedKeys (buildCheckoutData "s" undefSaveCardParams)) ∧
    (lookupKey (buildCheckoutData "s" absentSaveCardParams) "saveCard" =
      some (.bool false) ∧
     "saveCard" ∈ serializedKeys (buildCheckoutData "s" absentSaveCardParams)) :=
  ⟨(saveCard_undefined_dropped "s" undefSaveCardParams).1 rfl,
   (saveCard_undefined_dropped "s" absentSaveCardParams).2.1 rfl⟩
